import Mathlib

/-!
Verification of the cosmo dependency-injection container.

This file shallowly embeds the scoped variant of the container
(`Container`, `AddWithScope`, `Add`, `AddSingleton`, `spec`, `resolve`,
`Invoke`, `Bind`, `Configure`, `Get`) and proves the specification
claims about it.

Modelling conventions:
- `reflect.Type` keys are modelled as `Ty := Nat`; produced values as
  `Val := Nat`.
- Go maps are modelled as association lists with overwrite-on-insert
  (`insertA`) and first-match lookup (`lookupA`), which together give
  exactly the finite-map semantics of a Go map.
- A constructor (`reflect.Value` of function kind) is modelled as
  `Ctor`: its declared parameter types, produced type (`Out(0)`),
  declared number of outputs, and a pure function from argument values
  to the pair (first output, optional non-nil second output).  A `cid`
  field gives each registered constructor an identity, so that "which
  constructor executed" is observable.
- `resolve` takes a fuel parameter; exhausting the fuel (`RErr.fuel`)
  models the unbounded recursion (stack exhaustion) of the Go code on
  cyclic dependency graphs.  The Go function mutates `c.instances` in
  place; the model threads the container through and additionally
  returns the list of constructor executions performed by the call
  (type, cid, argument values), in execution order.
-/

namespace Cosmo

/-- Type keys (`reflect.Type`). -/
abbrev Ty := Nat

/-- Runtime values (`reflect.Value`). -/
abbrev Val := Nat

/-- Dependency scope (`ScopeTransient`, `ScopeSingleton`). -/
inductive Scope where
  | transient
  | singleton
deriving DecidableEq, Repr

/-- A constructor function value: declared parameter types, produced type
(`Out(0)`), declared number of outputs (`NumOut`), and behaviour.  `fn`
returns the first output together with the second output when it is a
non-nil error (`none` models a nil / absent second output).  `cid`
identifies the constructor. -/
structure Ctor where
  cid : Nat
  params : List Ty
  outTy : Ty
  nout : Nat
  fn : List Val → Val × Option Nat

/-- `Spec` is a descriptor of the service providers (source: `Spec`
struct with fields `Type`, `Value`, `Scope`). -/
structure Spec where
  ty : Ty
  ctor : Ctor
  scope : Scope

/-- `Container` manages the configurations, providers and instances. -/
structure Container where
  configurations : List (String × Ty)
  providers : List (Ty × Spec)
  instances : List (Ty × Val)

/-- Go map lookup. -/
def lookupA {κ α : Type} [DecidableEq κ] : List (κ × α) → κ → Option α
  | [], _ => none
  | (k, v) :: rest, k1 => if k = k1 then some v else lookupA rest k1

/-- Go map insertion: overwrite the entry for the key if present,
otherwise append it. -/
def insertA {κ α : Type} [DecidableEq κ] : List (κ × α) → κ → α → List (κ × α)
  | [], k, v => [(k, v)]
  | (k0, v0) :: rest, k, v =>
    if k0 = k then (k, v) :: rest else (k0, v0) :: insertA rest k v

/-- `New` creates a new Container. -/
def New : Container := ⟨[], [], []⟩

/-- The dynamic argument passed to registration: either a function value
or something that is not a function (`reflect.Kind != Func`). -/
inductive CtorArg where
  | fn (k : Ctor)
  | notFn

/-- `spec` identifies the produced type and value of the constructor and
validates that it is a function with one or two outputs. -/
def specOf : CtorArg → Except String (Ty × Ctor)
  | .notFn => .error "constructor must be a function"
  | .fn k =>
    if k.nout = 0 ∨ 2 < k.nout then .error "constructor must return T or (T, error)"
    else .ok (k.outTy, k)

/-- `AddWithScope` adds the constructor to the providers using the
specified scope (overwriting any previous provider for the same
produced type). -/
def AddWithScope (sc : Scope) (a : CtorArg) (c : Container) :
    Except String Unit × Container :=
  match specOf a with
  | .error e => (.error e, c)
  | .ok (t, k) => (.ok (), { c with providers := insertA c.providers t ⟨t, k, sc⟩ })

/-- `Add` adds the constructor with `ScopeTransient`. -/
def Add (a : CtorArg) (c : Container) : Except String Unit × Container :=
  AddWithScope .transient a c

/-- `AddSingleton` adds the constructor with `ScopeSingleton`. -/
def AddSingleton (a : CtorArg) (c : Container) : Except String Unit × Container :=
  AddWithScope .singleton a c

/-- Errors produced by `resolve`.  `noProvider t` is the
"no provider for type %v" error (it names the missing type `t`);
`ctorErr e` carries, verbatim, the non-nil second output `e` of a
two-output constructor; `fuel` models the non-returning unbounded
recursion of the Go code on cyclic graphs. -/
inductive RErr where
  | noProvider (t : Ty)
  | ctorErr (e : Nat)
  | fuel
deriving DecidableEq, Repr

/-- A record of one constructor execution: produced type, constructor
identity, and the argument values it was called with. -/
abbrev CtorCall := Ty × Nat × List Val

/-- The `for i := 0; i < providerType.NumIn(); i++ { ... c.resolve(argType) ... }`
loop of `resolve` (also the loops of `Invoke` and `Bind`): resolve a
list of types in order, threading the container, failing fast on the
first error, and accumulating the executions performed. -/
def resolveList (res : Ty → Container → Except RErr Val × Container × List CtorCall) :
    List Ty → Container → Except RErr (List Val) × Container × List CtorCall
  | [], c => (.ok [], c, [])
  | t :: ts, c =>
    match res t c with
    | (.error e, c1, lg) => (.error e, c1, lg)
    | (.ok v, c1, lg) =>
      match resolveList res ts c1 with
      | (.error e, c2, lg2) => (.error e, c2, lg ++ lg2)
      | (.ok vs, c2, lg2) => (.ok (v :: vs), c2, lg ++ lg2)

/-- The `len(out) == 2 && !out[1].IsNil()` check of `resolve`: the
second output of the constructor call, when the constructor declares
two outputs and that output is non-nil. -/
def errOut (nout : Nat) (o : Option Nat) : Option Nat :=
  match nout, o with
  | 2, some e => some e
  | _, _ => none

/-- The tail of `resolve` after the provider's arguments have been
resolved: execute the constructor (`provider.Value.Call(args)`), check
`len(out) == 2 && !out[1].IsNil()`, and cache the result when the
provider is singleton-scoped. -/
def finishCall (t : Ty) (s : Spec) (args : List Val) (c2 : Container)
    (lg : List CtorCall) : Except RErr Val × Container × List CtorCall :=
  let out := s.ctor.fn args
  let lg2 := lg ++ [(t, s.ctor.cid, args)]
  match errOut s.ctor.nout out.2 with
  | some e => (.error (.ctorErr e), c2, lg2)
  | none =>
    match s.scope with
    | .singleton => (.ok out.1, { c2 with instances := insertA c2.instances t out.1 }, lg2)
    | .transient => (.ok out.1, c2, lg2)

/-- `resolve` returns the instance associated with the type passed as
argument, taking it from the instance cache when present, and otherwise
recursively resolving the provider's parameters, executing the
constructor, and caching the result for singleton providers. -/
def resolve : Nat → Ty → Container → Except RErr Val × Container × List CtorCall
  | 0, _, c => (.error .fuel, c, [])
  | f + 1, t, c =>
    match lookupA c.instances t with
    | some v => (.ok v, c, [])
    | none =>
      match lookupA c.providers t with
      | none => (.error (.noProvider t), c, [])
      | some s =>
        match resolveList (resolve f) s.ctor.params c with
        | (.error e, c2, lg) => (.error e, c2, lg)
        | (.ok args, c2, lg) => finishCall t s args c2 lg

/-- Errors returned by `Invoke`: the "invoke expects a function" usage
error, or a resolution error propagated from `resolve`. -/
inductive InvErr where
  | notFunc
  | rerr (e : RErr)
deriving DecidableEq, Repr

/-- A function value passed to `Invoke`: its declared parameter types
and its own outputs (modelled as an optional error), which `Invoke`
never inspects. -/
structure FnArg where
  params : List Ty
  ret : List Val → Option Nat

/-- The dynamic argument of `Invoke`: a function value or not. -/
inductive InvokeArg where
  | fn (g : FnArg)
  | notFn

/-- `Invoke` runs a function, injecting the dependencies in the function
arguments.  The last component records the argument values the function
was called with (`none` when the function was never called).  The
function's own outputs are discarded. -/
def Invoke (f : Nat) (a : InvokeArg) (c : Container) :
    Except InvErr Unit × Container × List CtorCall × Option (List Val) :=
  match a with
  | .notFn => (.error .notFunc, c, [], none)
  | .fn g =>
    match resolveList (resolve f) g.params c with
    | (.error e, c1, lg) => (.error (.rerr e), c1, lg, none)
    | (.ok args, c1, lg) => (.ok (), c1, lg, some args)

/-- The dynamic argument of `Bind`: a pointer to a struct, carrying the
declared type and current value of each field in declaration order, or
anything else (a non-pointer, or a pointer to a non-struct). -/
inductive BindArg where
  | ptrStruct (fields : List (Ty × Val))
  | other

/-- The outcome of `Bind`: a run-time panic (from
`reflect.Value.Elem` / `NumField` on an argument that is not a pointer
to a struct), a returned resolution error, or success. -/
inductive BindRes where
  | panicked
  | failed (e : RErr)
  | ok
deriving DecidableEq, Repr

/-- The field loop of `Bind`: for each field in declaration order,
resolve the field's declared type and assign it, returning the final
field values.  On a resolution error the loop stops: the current and
all later fields keep their old values. -/
def bindLoop (res : Ty → Container → Except RErr Val × Container × List CtorCall) :
    List (Ty × Val) → Container → Except RErr Unit × List Val × Container × List CtorCall
  | [], c => (.ok (), [], c, [])
  | (ft, v) :: rest, c =>
    match res ft c with
    | (.error e, c1, lg) => (.error e, v :: rest.map Prod.snd, c1, lg)
    | (.ok r, c1, lg) =>
      match bindLoop res rest c1 with
      | (w, vs, c2, lg2) => (w, r :: vs, c2, lg ++ lg2)

/-- `Bind` injects dependencies into the argument struct.  The source
performs `reflect.ValueOf(out).Elem()` and `v.NumField()` without any
validation, so an argument that is not a pointer to a struct makes the
reflect package panic (process abort), modelled by `BindRes.panicked`. -/
def Bind (f : Nat) (a : BindArg) (c : Container) :
    BindRes × List Val × Container × List CtorCall :=
  match a with
  | .other => (.panicked, [], c, [])
  | .ptrStruct fields =>
    match bindLoop (resolve f) fields c with
    | (.error e, vs, c1, lg) => (.failed e, vs, c1, lg)
    | (.ok _, vs, c1, lg) => (.ok, vs, c1, lg)

/-- `Configure` validates the constructor, registers it as a singleton,
and remembers the key-to-type association. -/
def Configure (key : String) (a : CtorArg) (c : Container) :
    Except String Unit × Container :=
  match specOf a with
  | .error e => (.error e, c)
  | .ok (t, _) =>
    match AddSingleton a c with
    | (.error e, c1) => (.error e, c1)
    | (.ok _, c1) =>
      (.ok (), { c1 with configurations := insertA c1.configurations key t })

/-- `Get` returns the resolved value associated with the key, or `none`
when the key is unknown or resolution fails.  The container is returned
because `resolve` may have cached new singleton instances. -/
def Get (f : Nat) (key : String) (c : Container) : Option Val × Container :=
  match lookupA c.configurations key with
  | none => (none, c)
  | some t =>
    match resolve f t c with
    | (.error _, c1, _) => (none, c1)
    | (.ok v, c1, _) => (some v, c1)

/-- The declared parameter types of the provider registered for `t`
(empty when no provider is registered). -/
def depsOf (ps : List (Ty × Spec)) (t : Ty) : List Ty :=
  match lookupA ps t with
  | some s => s.ctor.params
  | none => []

/-- Reachability in the provider dependency graph: `Reach ps t u` holds
when `u` is `t` itself or is reachable from `t` by following declared
parameter types of registered providers. -/
inductive Reach (ps : List (Ty × Spec)) : Ty → Ty → Prop where
  | refl (t : Ty) : Reach ps t t
  | step {t u v : Ty} : u ∈ depsOf ps t → Reach ps u v → Reach ps t v

/-- Number of executions, recorded in a log, of the constructor
registered for type `t`. -/
def countLog (t : Ty) (lg : List CtorCall) : Nat :=
  (lg.filter fun e => e.1 = t).length

/-- A well-formed log entry produced while resolving `t` against the
provider map `ps`: its type is reachable from `t`, and its constructor
identity is the one currently registered for its type. -/
def entryOK (ps : List (Ty × Spec)) (t : Ty) (e : CtorCall) : Prop :=
  Reach ps t e.1 ∧ ∃ s, lookupA ps e.1 = some s ∧ s.ctor.cid = e.2.1

/-- A singleton provider for type 5 with no dependencies (constructor
identity 9, produces the value 11). -/
def wSing : Spec := ⟨5, ⟨9, [], 5, 1, fun _ => (11, none)⟩, .singleton⟩

/-- A container holding only `wSing`. -/
def wC1 : Container := ⟨[], [(5, wSing)], []⟩

/-- A singleton provider for type 0 with no dependencies (constructor
identity 1, produces the value 7). -/
def wSpecA : Spec := ⟨0, ⟨1, [], 0, 1, fun _ => (7, none)⟩, .singleton⟩

/-- A transient provider for type 1 depending on types 0 and 2; type 2
has no provider. -/
def wSpecT : Spec := ⟨1, ⟨2, [0, 2], 1, 1, fun a => (a.headD 0 + 100, none)⟩, .transient⟩

/-- A container where resolving type 1 first caches the singleton 0 and
then fails on the unprovided type 2. -/
def wC2 : Container := ⟨[], [(0, wSpecA), (1, wSpecT)], []⟩

/-- A transient provider for type 6 with no dependencies (constructor
identity 8, produces the value 12). -/
def wTrans : Spec := ⟨6, ⟨8, [], 6, 1, fun _ => (12, none)⟩, .transient⟩

/-- A container holding only `wTrans`. -/
def wC3 : Container := ⟨[], [(6, wTrans)], []⟩

/-- A singleton provider for type 2 whose two-output constructor always
returns the error 42 as its second output. -/
def wErr : Spec := ⟨2, ⟨3, [], 2, 2, fun _ => (9, some 42)⟩, .singleton⟩

/-- A container holding only `wErr`. -/
def wC8 : Container := ⟨[], [(2, wErr)], []⟩

/-- Two distinct constructors producing the same type 0 (identities 1
and 2). -/
def wK1 : Ctor := ⟨1, [], 0, 1, fun _ => (1, none)⟩

/-- See `wK1`. -/
def wK2 : Ctor := ⟨2, [], 0, 1, fun _ => (2, none)⟩

/-- A container with a cached instance (type 5 maps to the value 9) and
nothing else. -/
def wC6 : Container := ⟨[], [], [(5, 9)]⟩

theorem lookupA_insertA_self {κ α : Type} [DecidableEq κ] (m : List (κ × α)) (k : κ) (v : α) :
    lookupA (insertA m k v) k = some v := by
  induction m with
  | nil => simp [insertA, lookupA]
  | cons p rest ih =>
    obtain ⟨k0, v0⟩ := p
    by_cases h : k0 = k
    · simp [insertA, h, lookupA]
    · simp [insertA, h, lookupA, ih]

theorem lookupA_insertA_ne {κ α : Type} [DecidableEq κ] (m : List (κ × α)) (k k0 : κ) (v : α)
    (h : k0 ≠ k) : lookupA (insertA m k v) k0 = lookupA m k0 := by
  induction m with
  | nil => simp [insertA, lookupA, Ne.symm h]
  | cons p rest ih =>
    obtain ⟨k1, v1⟩ := p
    by_cases h1 : k1 = k
    · subst h1
      simp [insertA, lookupA, Ne.symm h]
    · simp only [insertA, if_neg h1, lookupA]
      by_cases h2 : k1 = k0 <;> simp [h2, ih]

theorem depsOf_eq {ps : List (Ty × Spec)} {t : Ty} {s : Spec}
    (h : lookupA ps t = some s) : depsOf ps t = s.ctor.params := by
  simp [depsOf, h]

theorem countLog_append (t : Ty) (l1 l2 : List CtorCall) :
    countLog t (l1 ++ l2) = countLog t l1 + countLog t l2 := by
  simp [countLog, List.filter_append]

theorem countLog_nil (t : Ty) : countLog t [] = 0 := rfl

theorem countLog_own (t : Ty) (i : Nat) (a : List Val) :
    countLog t [(t, i, a)] = 1 := by
  simp [countLog]

theorem countLog_eq_zero {t : Ty} {lg : List CtorCall}
    (h : ∀ e ∈ lg, e.1 ≠ t) : countLog t lg = 0 := by
  simp only [countLog, List.length_eq_zero]
  rw [List.filter_eq_nil_iff]
  intro e he
  simpa using h e he

theorem finishCall_providers (t : Ty) (s : Spec) (args : List Val) (c2 : Container)
    (lg : List CtorCall) : (finishCall t s args c2 lg).2.1.providers = c2.providers := by
  cases he : errOut s.ctor.nout (s.ctor.fn args).2 <;> cases hs : s.scope <;>
    simp [finishCall, he, hs]

theorem finishCall_log (t : Ty) (s : Spec) (args : List Val) (c2 : Container)
    (lg : List CtorCall) :
    (finishCall t s args c2 lg).2.2 = lg ++ [(t, s.ctor.cid, args)] := by
  cases he : errOut s.ctor.nout (s.ctor.fn args).2 <;> cases hs : s.scope <;>
    simp [finishCall, he, hs]

theorem finishCall_inst_ne (t : Ty) (s : Spec) (args : List Val) (c2 : Container)
    (lg : List CtorCall) (u : Ty) (hu : u ≠ t) :
    lookupA (finishCall t s args c2 lg).2.1.instances u = lookupA c2.instances u := by
  cases he : errOut s.ctor.nout (s.ctor.fn args).2 <;> cases hs : s.scope <;>
    simp [finishCall, he, hs, lookupA_insertA_ne _ _ _ _ hu]

theorem entryOK_step {ps : List (Ty × Spec)} {t l : Ty} {e : CtorCall}
    (hd : l ∈ depsOf ps t) (h : entryOK ps l e) : entryOK ps t e :=
  ⟨Reach.step hd h.1, h.2⟩

theorem resolve_succ_cached {f : Nat} {t : Ty} {c : Container} {v : Val}
    (hi : lookupA c.instances t = some v) :
    resolve (f + 1) t c = (.ok v, c, []) := by
  simp [resolve, hi]

theorem resolve_succ_noProv {f : Nat} {t : Ty} {c : Container}
    (hi : lookupA c.instances t = none) (hp : lookupA c.providers t = none) :
    resolve (f + 1) t c = (.error (.noProvider t), c, []) := by
  simp [resolve, hi, hp]

theorem resolve_succ_prov_err {f : Nat} {t : Ty} {c : Container} {s : Spec}
    {e : RErr} {c2 : Container} {lg : List CtorCall}
    (hi : lookupA c.instances t = none) (hp : lookupA c.providers t = some s)
    (hL : resolveList (resolve f) s.ctor.params c = (.error e, c2, lg)) :
    resolve (f + 1) t c = (.error e, c2, lg) := by
  simp [resolve, hi, hp, hL]

theorem resolve_succ_prov_ok {f : Nat} {t : Ty} {c : Container} {s : Spec}
    {args : List Val} {c2 : Container} {lg : List CtorCall}
    (hi : lookupA c.instances t = none) (hp : lookupA c.providers t = some s)
    (hL : resolveList (resolve f) s.ctor.params c = (.ok args, c2, lg)) :
    resolve (f + 1) t c = finishCall t s args c2 lg := by
  simp [resolve, hi, hp, hL]

theorem resolveList_providers
    (res : Ty → Container → Except RErr Val × Container × List CtorCall)
    (h : ∀ t c, ((res t c).2.1).providers = c.providers) :
    ∀ (L : List Ty) (c : Container),
      ((resolveList res L c).2.1).providers = c.providers := by
  intro L
  induction L with
  | nil => intro c; rfl
  | cons t ts ih =>
    intro c
    have h1p := h t c
    rcases h1 : res t c with ⟨r1, c1, lg1⟩
    rw [h1] at h1p
    cases r1 with
    | error e =>
      simp only [resolveList, h1]
      exact h1p
    | ok v =>
      have h2p := ih c1
      rcases h2 : resolveList res ts c1 with ⟨r2, c2, lg2⟩
      rw [h2] at h2p
      have h2q : c2.providers = c.providers := Eq.trans h2p h1p
      cases r2 with
      | error e2 =>
        simp only [resolveList, h1, h2]
        exact h2q
      | ok vs =>
        simp only [resolveList, h1, h2]
        exact h2q

theorem resolve_providers : ∀ (f : Nat) (t : Ty) (c : Container),
    ((resolve f t c).2.1).providers = c.providers := by
  intro f
  induction f with
  | zero => intro t c; rfl
  | succ f ih =>
    intro t c
    cases hi : lookupA c.instances t with
    | some v => rw [resolve_succ_cached hi]
    | none =>
      cases hp : lookupA c.providers t with
      | none => rw [resolve_succ_noProv hi hp]
      | some s =>
        have hLp := resolveList_providers (resolve f) ih s.ctor.params c
        rcases hL : resolveList (resolve f) s.ctor.params c with ⟨r, c2, lg⟩
        rw [hL] at hLp
        cases r with
        | error e =>
          rw [resolve_succ_prov_err hi hp hL]
          exact hLp
        | ok args =>
          rw [resolve_succ_prov_ok hi hp hL, finishCall_providers]
          exact hLp

theorem resolveList_mono
    (res : Ty → Container → Except RErr Val × Container × List CtorCall)
    (h : ∀ t c u v, lookupA c.instances u = some v →
      lookupA ((res t c).2.1).instances u = some v) :
    ∀ (L : List Ty) (c : Container) (u : Ty) (v : Val),
      lookupA c.instances u = some v →
      lookupA ((resolveList res L c).2.1).instances u = some v := by
  intro L
  induction L with
  | nil => intro c u v hv; exact hv
  | cons t ts ih =>
    intro c u v hv
    have h1p := h t c u v hv
    rcases h1 : res t c with ⟨r1, c1, lg1⟩
    rw [h1] at h1p
    cases r1 with
    | error e =>
      simp only [resolveList, h1]
      exact h1p
    | ok w =>
      have h2p := ih c1 u v h1p
      rcases h2 : resolveList res ts c1 with ⟨r2, c2, lg2⟩
      rw [h2] at h2p
      cases r2 with
      | error e2 =>
        simp only [resolveList, h1, h2]
        exact h2p
      | ok vs =>
        simp only [resolveList, h1, h2]
        exact h2p

theorem resolve_mono : ∀ (f : Nat) (t : Ty) (c : Container) (u : Ty) (v : Val),
    lookupA c.instances u = some v →
    lookupA ((resolve f t c).2.1).instances u = some v := by
  intro f
  induction f with
  | zero => intro t c u v hv; exact hv
  | succ f ih =>
    intro t c u v hv
    cases hi : lookupA c.instances t with
    | some w => rw [resolve_succ_cached hi]; exact hv
    | none =>
      cases hp : lookupA c.providers t with
      | none => rw [resolve_succ_noProv hi hp]; exact hv
      | some s =>
        have hLp := resolveList_mono (resolve f) ih s.ctor.params c u v hv
        rcases hL : resolveList (resolve f) s.ctor.params c with ⟨r, c2, lg⟩
        rw [hL] at hLp
        cases r with
        | error e =>
          rw [resolve_succ_prov_err hi hp hL]
          exact hLp
        | ok args =>
          rw [resolve_succ_prov_ok hi hp hL]
          by_cases hu : u = t
          · subst hu
            rw [hi] at hv
            exact absurd hv (by simp)
          · rw [finishCall_inst_ne _ _ _ _ _ _ hu]
            exact hLp

theorem resolveList_entries
    (res : Ty → Container → Except RErr Val × Container × List CtorCall)
    (ps : List (Ty × Spec))
    (hpres : ∀ t c, ((res t c).2.1).providers = c.providers)
    (h : ∀ t c, c.providers = ps → ∀ e ∈ (res t c).2.2, entryOK ps t e) :
    ∀ (L : List Ty) (c : Container), c.providers = ps →
      ∀ e ∈ (resolveList res L c).2.2, ∃ l ∈ L, entryOK ps l e := by
  intro L
  induction L with
  | nil => intro c hc e he; simp [resolveList] at he
  | cons t ts ih =>
    intro c hc e he
    rcases h1 : res t c with ⟨r1, c1, lg1⟩
    have hc1 : c1.providers = ps := by
      have hq := hpres t c
      rw [h1] at hq
      rw [hq, hc]
    have h1e : ∀ x ∈ lg1, entryOK ps t x := by
      intro x hx
      have hq := h t c hc x
      rw [h1] at hq
      exact hq hx
    cases r1 with
    | error e1 =>
      simp only [resolveList, h1] at he
      exact ⟨t, by simp, h1e e he⟩
    | ok v =>
      rcases h2 : resolveList res ts c1 with ⟨r2, c2, lg2⟩
      have h2e := ih c1 hc1
      rw [h2] at h2e
      cases r2 with
      | error e2 =>
        simp only [resolveList, h1, h2] at he
        rcases List.mem_append.mp he with hm | hm
        · exact ⟨t, by simp, h1e e hm⟩
        · rcases h2e e hm with ⟨l, hl, hok⟩
          exact ⟨l, by simp [hl], hok⟩
      | ok vs =>
        simp only [resolveList, h1, h2] at he
        rcases List.mem_append.mp he with hm | hm
        · exact ⟨t, by simp, h1e e hm⟩
        · rcases h2e e hm with ⟨l, hl, hok⟩
          exact ⟨l, by simp [hl], hok⟩

theorem resolve_entries : ∀ (f : Nat) (t : Ty) (c : Container),
    ∀ e ∈ (resolve f t c).2.2, entryOK c.providers t e := by
  intro f
  induction f with
  | zero => intro t c e he; simp [resolve] at he
  | succ f ih =>
    intro t c e he
    cases hi : lookupA c.instances t with
    | some v => rw [resolve_succ_cached hi] at he; simp at he
    | none =>
      cases hp : lookupA c.providers t with
      | none => rw [resolve_succ_noProv hi hp] at he; simp at he
      | some s =>
        have hloop := resolveList_entries (resolve f) c.providers
          (resolve_providers f)
          (fun t1 c1 hc1 e1 he1 => hc1 ▸ ih t1 c1 e1 he1)
          s.ctor.params c rfl
        rcases hL : resolveList (resolve f) s.ctor.params c with ⟨r, c2, lg⟩
        rw [hL] at hloop
        have hstep : ∀ x ∈ lg, entryOK c.providers t x := by
          intro x hx
          rcases hloop x hx with ⟨l, hl, hok⟩
          exact entryOK_step (by rw [depsOf_eq hp]; exact hl) hok
        cases r with
        | error e1 =>
          rw [resolve_succ_prov_err hi hp hL] at he
          exact hstep e he
        | ok args =>
          rw [resolve_succ_prov_ok hi hp hL] at he
          rw [finishCall_log] at he
          rcases List.mem_append.mp he with hm | hm
          · exact hstep e hm
          · have : e = (t, s.ctor.cid, args) := by simpa using hm
            subst this
            exact ⟨Reach.refl t, s, hp, rfl⟩

theorem resolveList_inst_new
    (res : Ty → Container → Except RErr Val × Container × List CtorCall)
    (h : ∀ t c u, lookupA c.instances u = none →
      lookupA ((res t c).2.1).instances u ≠ none →
      ∃ e ∈ (res t c).2.2, e.1 = u) :
    ∀ (L : List Ty) (c : Container) (u : Ty),
      lookupA c.instances u = none →
      lookupA ((resolveList res L c).2.1).instances u ≠ none →
      ∃ e ∈ (resolveList res L c).2.2, e.1 = u := by
  intro L
  induction L with
  | nil => intro c u h0 h1; exact absurd h0 h1
  | cons t ts ih =>
    intro c u h0 h1
    rcases h1r : res t c with ⟨r1, c1, lg1⟩
    have hsub := h t c u h0
    rw [h1r] at hsub
    cases r1 with
    | error e1 =>
      simp only [resolveList, h1r] at h1 ⊢
      exact hsub h1
    | ok v =>
      rcases h2r : resolveList res ts c1 with ⟨r2, c2, lg2⟩
      have hsub2 := ih c1 u
      rw [h2r] at hsub2
      by_cases hc1 : lookupA c1.instances u = none
      · cases r2 with
        | error e2 =>
          simp only [resolveList, h1r, h2r] at h1 ⊢
          rcases hsub2 hc1 h1 with ⟨e, he, hu⟩
          exact ⟨e, List.mem_append.mpr (Or.inr he), hu⟩
        | ok vs =>
          simp only [resolveList, h1r, h2r] at h1 ⊢
          rcases hsub2 hc1 h1 with ⟨e, he, hu⟩
          exact ⟨e, List.mem_append.mpr (Or.inr he), hu⟩
      · rcases hsub hc1 with ⟨e, he, hu⟩
        cases r2 with
        | error e2 =>
          simp only [resolveList, h1r, h2r]
          exact ⟨e, List.mem_append.mpr (Or.inl he), hu⟩
        | ok vs =>
          simp only [resolveList, h1r, h2r]
          exact ⟨e, List.mem_append.mpr (Or.inl he), hu⟩

theorem resolve_inst_new : ∀ (f : Nat) (t : Ty) (c : Container) (u : Ty),
    lookupA c.instances u = none →
    lookupA ((resolve f t c).2.1).instances u ≠ none →
    ∃ e ∈ (resolve f t c).2.2, e.1 = u := by
  intro f
  induction f with
  | zero => intro t c u h0 h1; exact absurd h0 h1
  | succ f ih =>
    intro t c u h0 h1
    cases hi : lookupA c.instances t with
    | some v =>
      rw [resolve_succ_cached hi] at h1
      exact absurd h0 h1
    | none =>
      cases hp : lookupA c.providers t with
      | none =>
        rw [resolve_succ_noProv hi hp] at h1
        exact absurd h0 h1
      | some s =>
        have hloop := resolveList_inst_new (resolve f) ih s.ctor.params c u h0
        rcases hL : resolveList (resolve f) s.ctor.params c with ⟨r, c2, lg⟩
        rw [hL] at hloop
        cases r with
        | error e1 =>
          rw [resolve_succ_prov_err hi hp hL] at h1 ⊢
          exact hloop h1
        | ok args =>
          rw [resolve_succ_prov_ok hi hp hL] at h1 ⊢
          by_cases hu : u = t
          · subst hu
            refine ⟨(u, s.ctor.cid, args), ?_, rfl⟩
            rw [finishCall_log]
            exact List.mem_append.mpr (Or.inr (by simp))
          · rw [finishCall_inst_ne _ _ _ _ _ _ hu] at h1
            rcases hloop h1 with ⟨e, he, heu⟩
            refine ⟨e, ?_, heu⟩
            rw [finishCall_log]
            exact List.mem_append.mpr (Or.inl he)

theorem resolveList_no_target (f : Nat) (L : List Ty) (c : Container) (T : Ty)
    (hcy : ∀ u ∈ L, ¬ Reach c.providers u T) :
    ∀ e ∈ (resolveList (resolve f) L c).2.2, e.1 ≠ T := by
  intro e he hT
  rcases resolveList_entries (resolve f) c.providers (resolve_providers f)
    (fun t1 c1 hc1 e1 he1 => hc1 ▸ resolve_entries f t1 c1 e1 he1) L c rfl e he
    with ⟨l, hl, hok⟩
  exact hcy l hl (hT ▸ hok.1)

theorem resolveList_no_cache_target (f : Nat) (L : List Ty) (c : Container) (T : Ty)
    (hcy : ∀ u ∈ L, ¬ Reach c.providers u T) (hi : lookupA c.instances T = none) :
    lookupA ((resolveList (resolve f) L c).2.1).instances T = none := by
  cases hx : lookupA ((resolveList (resolve f) L c).2.1).instances T with
  | none => rfl
  | some w =>
    rcases resolveList_inst_new (resolve f) (resolve_inst_new f) L c T hi
      (by rw [hx]; simp) with ⟨e, he, hT⟩
    exact absurd hT (resolveList_no_target f L c T hcy e he)

/-- Claim C1: for a provider registered with Singleton scope for type
`T` (whose dependency graph does not lead back to `T`, so that the call
can return at all), a returning `resolve` call executes the constructor
at most once, stores the produced value in the instance cache, and every
subsequent `resolve` call for `T` performs no constructor execution at
all and returns exactly the cached value, leaving the container
unchanged. -/
theorem C1_singleton_executes_at_most_once (f : Nat) (T : Ty) (c : Container)
    (s : Spec) (v : Val) (c1 : Container) (lg : List CtorCall)
    (hp : lookupA c.providers T = some s) (hs : s.scope = .singleton)
    (hcy : ∀ u ∈ s.ctor.params, ¬ Reach c.providers u T)
    (hr : resolve f T c = (.ok v, c1, lg)) :
    countLog T lg ≤ 1 ∧ lookupA c1.instances T = some v ∧
      ∀ g : Nat, resolve (g + 1) T c1 = (.ok v, c1, []) := by
  cases f with
  | zero => simp [resolve] at hr
  | succ f =>
    cases hi : lookupA c.instances T with
    | some w =>
      rw [resolve_succ_cached hi] at hr
      have hv : w = v := Except.ok.inj (congrArg (fun x => x.1) hr)
      have hc1 : c = c1 := congrArg (fun x => x.2.1) hr
      have hlg : ([] : List CtorCall) = lg := congrArg (fun x => x.2.2) hr
      subst hv
      subst hc1
      rw [← hlg]
      exact ⟨by simp [countLog_nil], hi, fun g => resolve_succ_cached hi⟩
    | none =>
      rcases hL : resolveList (resolve f) s.ctor.params c with ⟨r, c2, lg2⟩
      cases r with
      | error e =>
        rw [resolve_succ_prov_err hi hp hL] at hr
        simp at hr
      | ok args =>
        rw [resolve_succ_prov_ok hi hp hL] at hr
        cases he : errOut s.ctor.nout (s.ctor.fn args).2 with
        | some e => simp [finishCall, he] at hr
        | none =>
          simp only [finishCall, he, hs] at hr
          obtain ⟨hv, hc1, hlg⟩ := by simpa [Prod.ext_iff] using hr
          have hcount : countLog T lg2 = 0 := by
            apply countLog_eq_zero
            have := resolveList_no_target f s.ctor.params c T hcy
            rw [hL] at this
            exact this
          have hinst : lookupA c1.instances T = some v := by
            rw [← hc1, ← hv]
            exact lookupA_insertA_self c2.instances T (s.ctor.fn args).1
          refine ⟨?_, hinst, fun g => resolve_succ_cached hinst⟩
          rw [← hlg, countLog_append, hcount, countLog_own]

/-- Witness for C1: in `wC1`, resolving the singleton type 5 succeeds
with value 11, the first call logs at most one execution, the value is
cached, and a second call returns the cached value with no execution. -/
theorem C1_witness :
    countLog 5 [(5, 9, ([] : List Val))] ≤ 1
    ∧ lookupA (Container.mk [] [(5, wSing)] [(5, 11)]).instances 5 = some 11
    ∧ resolve 1 5 (Container.mk [] [(5, wSing)] [(5, 11)]) =
        (.ok 11, Container.mk [] [(5, wSing)] [(5, 11)], []) := by
  have h := C1_singleton_executes_at_most_once 1 5 wC1 wSing 11
    (Container.mk [] [(5, wSing)] [(5, 11)]) [(5, 9, [])] rfl rfl
    (by intro u hu; simp [wSing] at hu) rfl
  exact ⟨h.1, h.2.1, h.2.2 0⟩

/-- Counterexample to claim C2 as stated: in `wC2`, resolving type 1
fails (type 2 has no provider), yet the call has cached the singleton
dependency 0, so the instance cache is not the same as before the
call. -/
theorem C2_counterexample :
    (resolve 3 1 wC2).1 = .error (.noProvider 2)
    ∧ lookupA ((resolve 3 1 wC2).2.1).instances 0 = some 7
    ∧ lookupA wC2.instances 0 = none := by
  refine ⟨rfl, rfl, rfl⟩

/-- Claim C2 (amended): a failing `resolve(T)` call adds no instance
cache entry for `T` itself (when `T`'s dependency graph does not lead
back to `T`); entries for singleton dependencies resolved successfully
before the failure may, however, remain cached. -/
theorem C2_amended_no_entry_for_target (f : Nat) (T : Ty) (c : Container)
    (e : RErr) (c1 : Container) (lg : List CtorCall)
    (hcy : ∀ u ∈ depsOf c.providers T, ¬ Reach c.providers u T)
    (hr : resolve f T c = (.error e, c1, lg)) :
    lookupA c1.instances T = lookupA c.instances T := by
  cases f with
  | zero =>
    have hc1 : c = c1 := congrArg (fun x => x.2.1) hr
    rw [← hc1]
  | succ f =>
    cases hi : lookupA c.instances T with
    | some w =>
      rw [resolve_succ_cached hi] at hr
      simp at hr
    | none =>
      cases hp : lookupA c.providers T with
      | none =>
        rw [resolve_succ_noProv hi hp] at hr
        have hc1 : c = c1 := congrArg (fun x => x.2.1) hr
        rw [← hc1]
        exact hi
      | some s =>
        rw [depsOf_eq hp] at hcy
        have hc2 := resolveList_no_cache_target f s.ctor.params c T hcy hi
        rcases hL : resolveList (resolve f) s.ctor.params c with ⟨r, c2, lg2⟩
        rw [hL] at hc2
        have hc2n : lookupA c2.instances T = none := hc2
        cases r with
        | error e2 =>
          rw [resolve_succ_prov_err hi hp hL] at hr
          have hc1 : c2 = c1 := congrArg (fun x => x.2.1) hr
          rw [← hc1]
          exact hc2n
        | ok args =>
          rw [resolve_succ_prov_ok hi hp hL] at hr
          cases he : errOut s.ctor.nout (s.ctor.fn args).2 with
          | some e3 =>
            simp only [finishCall, he] at hr
            have hc1 : c2 = c1 := congrArg (fun x => x.2.1) hr
            rw [← hc1]
            exact hc2n
          | none =>
            cases hsc : s.scope <;> simp [finishCall, he, hsc] at hr

/-- Witness for C2 (amended): resolving an unprovided type fails and
leaves no entry for it. -/
theorem C2_amended_witness :
    lookupA (Container.mk [] [] [(3, 4)]).instances 9 =
      lookupA (Container.mk [] [] [(3, 4)]).instances 9 :=
  C2_amended_no_entry_for_target 1 9 (Container.mk [] [] [(3, 4)])
    (.noProvider 9) (Container.mk [] [] [(3, 4)]) []
    (by intro u hu; simp [depsOf, lookupA] at hu) rfl

/-- Claim C3: for a provider registered with Transient scope for type
`T` (whose dependency graph does not lead back to `T`), a returning
successful `resolve` call from a state with no cached instance for `T`
executes the constructor exactly once and writes no instance cache
entry for `T`, so every such call re-runs the constructor. -/
theorem C3_transient_executes_every_call (f : Nat) (T : Ty) (c : Container)
    (s : Spec) (v : Val) (c1 : Container) (lg : List CtorCall)
    (hp : lookupA c.providers T = some s) (hs : s.scope = .transient)
    (hi : lookupA c.instances T = none)
    (hcy : ∀ u ∈ s.ctor.params, ¬ Reach c.providers u T)
    (hr : resolve f T c = (.ok v, c1, lg)) :
    countLog T lg = 1 ∧ lookupA c1.instances T = none := by
  cases f with
  | zero => simp [resolve] at hr
  | succ f =>
    rcases hL : resolveList (resolve f) s.ctor.params c with ⟨r, c2, lg2⟩
    cases r with
    | error e =>
      rw [resolve_succ_prov_err hi hp hL] at hr
      simp at hr
    | ok args =>
      rw [resolve_succ_prov_ok hi hp hL] at hr
      cases he : errOut s.ctor.nout (s.ctor.fn args).2 with
      | some e => simp [finishCall, he] at hr
      | none =>
        simp only [finishCall, he, hs] at hr
        obtain ⟨hv, hc1, hlg⟩ := by simpa [Prod.ext_iff] using hr
        have hcount : countLog T lg2 = 0 := by
          apply countLog_eq_zero
          have := resolveList_no_target f s.ctor.params c T hcy
          rw [hL] at this
          exact this
        have hc2 := resolveList_no_cache_target f s.ctor.params c T hcy hi
        rw [hL] at hc2
        constructor
        · rw [← hlg, countLog_append, hcount, countLog_own]
        · rw [← hc1]
          exact hc2

/-- Witness for C3: in `wC3`, resolving the transient type 6 succeeds
with one constructor execution and caches nothing. -/
theorem C3_witness :
    countLog 6 [(6, 8, ([] : List Val))] = 1
    ∧ lookupA wC3.instances 6 = none :=
  C3_transient_executes_every_call 1 6 wC3 wTrans 12 wC3 [(6, 8, [])]
    rfl rfl rfl (by intro u hu; simp [wTrans] at hu) rfl

/-- Claim C7: for a type `T` with neither a cached instance nor a
registered provider, `resolve` fails with the "no provider for type"
error naming `T`, and the container (in particular its instance cache)
is returned unchanged, with no constructor executed. -/
theorem C7_no_provider_error (f : Nat) (T : Ty) (c : Container)
    (hi : lookupA c.instances T = none) (hp : lookupA c.providers T = none) :
    resolve (f + 1) T c = (.error (.noProvider T), c, []) :=
  resolve_succ_noProv hi hp

/-- Witness for C7: resolving any type in the empty container fails
with the error naming that type. -/
theorem C7_witness : resolve 1 0 New = (.error (.noProvider 0), New, []) :=
  C7_no_provider_error 0 0 New rfl rfl

/-- Claim C8: when a registered two-output constructor returns a
non-nil second output, `resolve` fails with exactly that error; the
first output is discarded: it is not returned and (given that `T`'s
dependency graph does not lead back to `T`) no instance cache entry for
`T` is created, even for a singleton-scoped provider. -/
theorem C8_ctor_error_discards_value (f : Nat) (T : Ty) (c : Container)
    (s : Spec) (args : List Val) (c2 : Container) (lg : List CtorCall) (e : Nat)
    (hi : lookupA c.instances T = none) (hp : lookupA c.providers T = some s)
    (hn : s.ctor.nout = 2)
    (hL : resolveList (resolve f) s.ctor.params c = (.ok args, c2, lg))
    (he : (s.ctor.fn args).2 = some e)
    (hcy : ∀ u ∈ s.ctor.params, ¬ Reach c.providers u T) :
    resolve (f + 1) T c = (.error (.ctorErr e), c2, lg ++ [(T, s.ctor.cid, args)])
    ∧ lookupA c2.instances T = none := by
  constructor
  · rw [resolve_succ_prov_ok hi hp hL]
    simp [finishCall, errOut, hn, he]
  · have hc2 := resolveList_no_cache_target f s.ctor.params c T hcy hi
    rw [hL] at hc2
    exact hc2

/-- Witness for C8: in `wC8`, the erroring two-output singleton
constructor for type 2 makes `resolve` fail with exactly the error 42
and caches nothing. -/
theorem C8_witness :
    resolve 1 2 wC8 = (.error (.ctorErr 42), wC8, [(2, 3, ([] : List Val))])
    ∧ lookupA wC8.instances 2 = none :=
  C8_ctor_error_discards_value 0 2 wC8 wErr [] wC8 [] 42 rfl rfl rfl rfl rfl
    (by intro u hu; simp [wErr] at hu)

theorem AddWithScope_instances (sc : Scope) (a : CtorArg) (c : Container) :
    ((AddWithScope sc a c).2).instances = c.instances := by
  cases hsp : specOf a with
  | error e => simp [AddWithScope, hsp]
  | ok p =>
    obtain ⟨t, k⟩ := p
    simp [AddWithScope, hsp]

theorem Configure_instances (key : String) (a : CtorArg) (c : Container) :
    ((Configure key a c).2).instances = c.instances := by
  cases hsp : specOf a with
  | error e => simp [Configure, hsp]
  | ok p =>
    obtain ⟨t, k⟩ := p
    rcases hA : AddSingleton a c with ⟨rA, cA⟩
    have hAi : cA.instances = c.instances := by
      have h := AddWithScope_instances .singleton a c
      rw [show AddSingleton a c = AddWithScope Scope.singleton a c from rfl] at hA
      rw [hA] at h
      exact h
    cases rA with
    | error e => simp [Configure, hsp, hA, hAi]
    | ok u => simp [Configure, hsp, hA, hAi]

theorem bindLoop_mono
    (res : Ty → Container → Except RErr Val × Container × List CtorCall)
    (h : ∀ t c u v, lookupA c.instances u = some v →
      lookupA ((res t c).2.1).instances u = some v) :
    ∀ (L : List (Ty × Val)) (c : Container) (u : Ty) (v : Val),
      lookupA c.instances u = some v →
      lookupA ((bindLoop res L c).2.2.1).instances u = some v := by
  intro L
  induction L with
  | nil => intro c u v hv; exact hv
  | cons p rest ih =>
    obtain ⟨ft, w⟩ := p
    intro c u v hv
    have h1p := h ft c u v hv
    rcases h1 : res ft c with ⟨r1, c1, lg1⟩
    rw [h1] at h1p
    cases r1 with
    | error e =>
      simp only [bindLoop, h1]
      exact h1p
    | ok r =>
      have h2p := ih c1 u v h1p
      rcases h2 : bindLoop res rest c1 with ⟨w2, vs2, c2, lg2⟩
      rw [h2] at h2p
      simp only [bindLoop, h1, h2]
      exact h2p

theorem bindLoop_ok_extend
    (res : Ty → Container → Except RErr Val × Container × List CtorCall) :
    ∀ (pre rest : List (Ty × Val)) (c : Container) (pvs : List Val)
      (c1 : Container) (lg1 : List CtorCall) (w : Except RErr Unit)
      (vs : List Val) (c2 : Container) (lg2 : List CtorCall),
      bindLoop res pre c = (.ok (), pvs, c1, lg1) →
      bindLoop res rest c1 = (w, vs, c2, lg2) →
      bindLoop res (pre ++ rest) c = (w, pvs ++ vs, c2, lg1 ++ lg2) := by
  intro pre
  induction pre with
  | nil =>
    intro rest c pvs c1 lg1 w vs c2 lg2 h1 h2
    have hpvs : ([] : List Val) = pvs := congrArg (fun x => x.2.1) h1
    have hc1 : c = c1 := congrArg (fun x => x.2.2.1) h1
    have hlg : ([] : List CtorCall) = lg1 := congrArg (fun x => x.2.2.2) h1
    subst hc1
    rw [← hpvs, ← hlg]
    simpa using h2
  | cons p pre ih =>
    obtain ⟨ft, v0⟩ := p
    intro rest c pvs c1 lg1 w vs c2 lg2 h1 h2
    rcases hr : res ft c with ⟨r0, cm, lgm⟩
    cases r0 with
    | error e0 =>
      simp only [bindLoop, hr] at h1
      exact absurd (congrArg (fun x => x.1) h1) (by simp)
    | ok r0v =>
      rcases hB : bindLoop res pre cm with ⟨w3, vs3, c3, lg3⟩
      simp only [bindLoop, hr, hB] at h1
      have hw3 : w3 = .ok () := congrArg (fun x => x.1) h1
      have hpvs : r0v :: vs3 = pvs := congrArg (fun x => x.2.1) h1
      have hc3 : c3 = c1 := congrArg (fun x => x.2.2.1) h1
      have hlg3 : lgm ++ lg3 = lg1 := congrArg (fun x => x.2.2.2) h1
      have hIH := ih rest cm vs3 c1 lg3 w vs c2 lg2
        (by rw [hB, hw3, hc3]) h2
      simp only [bindLoop, hr, List.append_eq]
      rw [hIH, ← hpvs, ← hlg3]
      simp [List.append_assoc]

/-- Counterexample to claim C4 as stated: `Bind` performs no validation
of its argument; on an argument that is not a pointer to a struct the
reflect calls panic (modelled by `BindRes.panicked`) instead of a
UsageError being returned to the caller. -/
theorem C4_counterexample :
    Bind 1 BindArg.other New = (BindRes.panicked, [], New, []) := rfl

/-- Claim C4 (amended): for every argument that is not a pointer to a
struct value, `Bind` panics (aborting the process) rather than
returning an error, and assigns nothing (the container is unchanged and
no constructor is executed). -/
theorem C4_amended_bind_panics (f : Nat) (c : Container) :
    Bind f BindArg.other c = (.panicked, [], c, []) := rfl

/-- Claim C5: after two successful registrations of constructors
producing the same type (in any scopes), the provider map holds exactly
the second constructor for that type, and no resolution performed
against the resulting provider map ever executes the first constructor
(provided its identity does not also occur elsewhere in the map). -/
theorem C5_second_registration_wins (c0 : Container) (k1 k2 : Ctor)
    (sc1 sc2 : Scope)
    (hv1 : ¬ (k1.nout = 0 ∨ 2 < k1.nout)) (hv2 : ¬ (k2.nout = 0 ∨ 2 < k2.nout))
    (hT : k2.outTy = k1.outTy)
    (hfresh : ∀ u s, lookupA c0.providers u = some s → s.ctor.cid ≠ k1.cid)
    (hne : k2.cid ≠ k1.cid) :
    lookupA ((AddWithScope sc2 (.fn k2) ((AddWithScope sc1 (.fn k1) c0).2)).2).providers
        k1.outTy = some ⟨k2.outTy, k2, sc2⟩
    ∧ ∀ (f : Nat) (t : Ty) (c : Container),
        c.providers =
          ((AddWithScope sc2 (.fn k2) ((AddWithScope sc1 (.fn k1) c0).2)).2).providers →
        ∀ e ∈ (resolve f t c).2.2, e.2.1 ≠ k1.cid := by
  have h1 : (AddWithScope sc1 (.fn k1) c0).2 =
      { c0 with providers := insertA c0.providers k1.outTy ⟨k1.outTy, k1, sc1⟩ } := by
    simp [AddWithScope, specOf, hv1]
  have h2 : ((AddWithScope sc2 (.fn k2) ((AddWithScope sc1 (.fn k1) c0).2)).2).providers =
      insertA (insertA c0.providers k1.outTy ⟨k1.outTy, k1, sc1⟩) k2.outTy
        ⟨k2.outTy, k2, sc2⟩ := by
    rw [h1]
    simp [AddWithScope, specOf, hv2]
  constructor
  · rw [h2, hT, lookupA_insertA_self]
  · intro f t c hc e he hbad
    obtain ⟨-, s, hs, hcid⟩ := resolve_entries f t c e he
    rw [hc, h2] at hs
    rw [hbad] at hcid
    by_cases hu : e.1 = k1.outTy
    · rw [hu, ← hT, lookupA_insertA_self] at hs
      have hsv : s = ⟨k2.outTy, k2, sc2⟩ := (Option.some.inj hs).symm
      rw [hsv] at hcid
      exact hne hcid
    · rw [lookupA_insertA_ne _ _ _ _ (by rw [hT]; exact hu)] at hs
      rw [lookupA_insertA_ne _ _ _ _ hu] at hs
      exact hfresh e.1 s hs hcid

/-- Witness for C5: registering `wK1` then `wK2` (both producing type
0) leaves exactly `wK2` registered for type 0. -/
theorem C5_witness :
    lookupA ((AddWithScope .singleton (.fn wK2)
        ((AddWithScope .transient (.fn wK1) New).2)).2).providers 0
      = some ⟨0, wK2, .singleton⟩ :=
  (C5_second_registration_wins New wK1 wK2 .transient .singleton
    (by decide) (by decide) rfl
    (by intro u s h; simp [New, lookupA] at h) (by decide)).1

/-- Claim C6: the instance cache is append-only.  No operation of the
container (`resolve`, `Invoke`, `Bind`, `Get`, `AddWithScope`, `Add`,
`AddSingleton`, `Configure`) removes or overwrites an existing entry of
the instances map; registering a new provider for a type whose
singleton instance is already cached leaves the cached instance in
place and still returned by `resolve`. -/
theorem C6_instances_append_only :
    (∀ (f : Nat) (t : Ty) (c : Container) (u : Ty) (v : Val),
        lookupA c.instances u = some v →
        lookupA ((resolve f t c).2.1).instances u = some v)
    ∧ (∀ (f : Nat) (a : InvokeArg) (c : Container) (u : Ty) (v : Val),
        lookupA c.instances u = some v →
        lookupA ((Invoke f a c).2.1).instances u = some v)
    ∧ (∀ (f : Nat) (a : BindArg) (c : Container) (u : Ty) (v : Val),
        lookupA c.instances u = some v →
        lookupA ((Bind f a c).2.2.1).instances u = some v)
    ∧ (∀ (f : Nat) (key : String) (c : Container) (u : Ty) (v : Val),
        lookupA c.instances u = some v →
        lookupA ((Get f key c).2).instances u = some v)
    ∧ (∀ (sc : Scope) (a : CtorArg) (c : Container),
        ((AddWithScope sc a c).2).instances = c.instances)
    ∧ (∀ (a : CtorArg) (c : Container), ((Add a c).2).instances = c.instances)
    ∧ (∀ (a : CtorArg) (c : Container),
        ((AddSingleton a c).2).instances = c.instances)
    ∧ (∀ (key : String) (a : CtorArg) (c : Container),
        ((Configure key a c).2).instances = c.instances)
    ∧ (∀ (sc : Scope) (a : CtorArg) (c : Container) (T : Ty) (v : Val) (g : Nat),
        lookupA c.instances T = some v →
        resolve (g + 1) T ((AddWithScope sc a c).2) =
          (.ok v, (AddWithScope sc a c).2, [])) := by
  refine ⟨resolve_mono, ?_, ?_, ?_, AddWithScope_instances,
    fun a c => AddWithScope_instances .transient a c,
    fun a c => AddWithScope_instances .singleton a c,
    Configure_instances, ?_⟩
  · intro f a c u v hv
    cases a with
    | notFn => exact hv
    | fn g =>
      have h := resolveList_mono (resolve f) (resolve_mono f) g.params c u v hv
      rcases hL : resolveList (resolve f) g.params c with ⟨r, c1, lg⟩
      rw [hL] at h
      cases r with
      | error e =>
        simp only [Invoke, hL]
        exact h
      | ok args =>
        simp only [Invoke, hL]
        exact h
  · intro f a c u v hv
    cases a with
    | other => exact hv
    | ptrStruct flds =>
      have h := bindLoop_mono (resolve f) (resolve_mono f) flds c u v hv
      rcases hB : bindLoop (resolve f) flds c with ⟨w, vs, c1, lg⟩
      rw [hB] at h
      cases w with
      | error e =>
        simp only [Bind, hB]
        exact h
      | ok uu =>
        simp only [Bind, hB]
        exact h
  · intro f key c u v hv
    cases hk : lookupA c.configurations key with
    | none =>
      simp only [Get, hk]
      exact hv
    | some t =>
      have h := resolve_mono f t c u v hv
      rcases hR : resolve f t c with ⟨r, c1, lg⟩
      rw [hR] at h
      cases r with
      | error e =>
        simp only [Get, hk, hR]
        exact h
      | ok w =>
        simp only [Get, hk, hR]
        exact h
  · intro sc a c T v g hv
    have hinst : lookupA ((AddWithScope sc a c).2).instances T = some v := by
      rw [AddWithScope_instances]
      exact hv
    exact resolve_succ_cached hinst

/-- Witness for C6: a cached entry survives a failing `resolve` call. -/
theorem C6_witness :
    lookupA ((resolve 1 0 wC6).2.1).instances 5 = some 9 :=
  C6_instances_append_only.1 1 0 wC6 5 9 rfl

/-- Claim C9: `Invoke` on a function resolves the declared parameter
types in declaration order before the call; if any resolution fails,
`Invoke` returns that resolution error and the function is never called
(`none`); if all resolve, the function is called once with exactly the
resolved arguments and `Invoke` returns no error; the function body and
its outputs play no role in the result. -/
theorem C9_invoke_resolution_semantics (f : Nat) (ps : List Ty)
    (r1 r2 : List Val → Option Nat) (c : Container) :
    (∀ (e : RErr) (c1 : Container) (lg : List CtorCall),
        resolveList (resolve f) ps c = (.error e, c1, lg) →
        Invoke f (.fn ⟨ps, r1⟩) c = (.error (.rerr e), c1, lg, none))
    ∧ (∀ (args : List Val) (c1 : Container) (lg : List CtorCall),
        resolveList (resolve f) ps c = (.ok args, c1, lg) →
        Invoke f (.fn ⟨ps, r1⟩) c = (.ok (), c1, lg, some args))
    ∧ Invoke f (.fn ⟨ps, r1⟩) c = Invoke f (.fn ⟨ps, r2⟩) c := by
  refine ⟨?_, ?_, rfl⟩
  · intro e c1 lg h
    simp [Invoke, h]
  · intro args c1 lg h
    simp [Invoke, h]

/-- Witness for C9: invoking a function with one unprovided parameter
type fails with that resolution error and the function is not called. -/
theorem C9_witness :
    Invoke 1 (.fn ⟨[5], fun _ => none⟩) New =
      (.error (.rerr (.noProvider 5)), New, [], none) :=
  (C9_invoke_resolution_semantics 1 [5] (fun _ => none) (fun _ => none) New).1
    (.noProvider 5) New [] rfl

/-- Claim C10: `Bind` on a pointer to a struct processes fields in
declaration order, assigning each the resolved value for its declared
type; when resolution fails at a field, `Bind` returns that error,
fields before it keep their newly assigned values, and the failing
field and all later fields keep their old values (no rollback). -/
theorem C10_bind_partial_assignment (f : Nat) :
    (∀ (flds : List (Ty × Val)) (c : Container) (vsall : List Val)
        (c1 : Container) (lg1 : List CtorCall),
        bindLoop (resolve f) flds c = (.ok (), vsall, c1, lg1) →
        Bind f (.ptrStruct flds) c = (.ok, vsall, c1, lg1))
    ∧ (∀ (pre post : List (Ty × Val)) (ft : Ty) (v : Val) (c : Container)
        (pvs : List Val) (c1 : Container) (lg1 : List CtorCall) (e : RErr)
        (c2 : Container) (lg2 : List CtorCall),
        bindLoop (resolve f) pre c = (.ok (), pvs, c1, lg1) →
        resolve f ft c1 = (.error e, c2, lg2) →
        Bind f (.ptrStruct (pre ++ (ft, v) :: post)) c =
          (.failed e, pvs ++ (v :: post.map Prod.snd), c2, lg1 ++ lg2)) := by
  constructor
  · intro flds c vsall c1 lg1 h
    simp [Bind, h]
  · intro pre post ft v c pvs c1 lg1 e c2 lg2 hpre hfail
    have hrest : bindLoop (resolve f) ((ft, v) :: post) c1 =
        (.error e, v :: post.map Prod.snd, c2, lg2) := by
      simp [bindLoop, hfail]
    have h := bindLoop_ok_extend (resolve f) pre ((ft, v) :: post) c pvs c1 lg1
      (.error e) (v :: post.map Prod.snd) c2 lg2 hpre hrest
    simp [Bind, h]

/-- Witness for C10: binding a two-field struct whose first field type
is unprovided fails with that error and leaves both field values
unchanged. -/
theorem C10_witness :
    Bind 1 (.ptrStruct [(5, 77), (6, 88)]) New =
      (.failed (.noProvider 5), [77, 88], New, []) :=
  (C10_bind_partial_assignment 1).2 [] [(6, 88)] 5 77 New [] New []
    (.noProvider 5) New [] rfl rfl

end Cosmo
